import Mathlib

/-!
# Verification of the ghcsd protocol bridge

Shallow embedding of the core components of the ghcsd repository (a proxy
that bridges OpenAI-style and Anthropic-style chat-completion requests onto
a single backend completion service) together with proofs about them.

The embedding follows the Go source files:

* `internal/proxy/anthropic/stream.go` (the Copilot-to-Anthropic variant,
  `StreamProcessor.ProcessStream`): the Streaming Protocol Bridge.
* `internal/proxy/anthropic/conversion.go`
  (`convertAnthropicToCopilotMessages`, `convertCopilotToAnthropicResponse`,
  `ParseToolResultContent`): the Request Canonicalizer and Response Formatter.
* `internal/proxy/anthropic/handler.go` (`mapModel`, `ServeHTTP` model
  resolution, `handleTokenCount`) and `internal/config/config.go`
  (`ValidateModel`): the Model Alias Resolver.
* `internal/proxy/anthropic/utils.go` (`estimateTokenCount`,
  `logWithPrefix` masking).
* `internal/copilot/auth.go` (`GetCopilotToken`): the Credential Lifecycle
  Manager, with HTTP and file effects abstracted into oracle results.

Machine strings are treated as their character lists (the Go code only ever
slices ASCII data at the places modelled here, where bytes and characters
coincide).  Fallible operations return `Except`/`Option`; the one Go runtime
panic reachable in the modelled code is represented by an explicit
constructor.
-/

namespace Ghcsd

/-! ## Shared data model (internal/copilot/types.go) -/

/-- One choice of a backend `CompletionResponse` (`copilot.Choice`).
`messageContent` is `Choice.Message.Content`; `deltaContent` is
`Choice.Delta.Content`, which in Go is an `interface{}` that the bridge only
uses when it is a string (`none` models nil or any non-string value). -/
structure Choice where
  messageContent : String
  deltaContent : Option String
  finishReason : String
  deriving DecidableEq, Repr

/-- Backend response / stream chunk (`copilot.CompletionResponse`).  The
`id`, `created` and `model` fields are never read by the converted code and
are omitted; the three usage counters are kept. -/
structure CompletionResponse where
  choices : List Choice
  promptTokens : Nat
  completionTokens : Nat
  totalTokens : Nat
  deriving DecidableEq, Repr

/-! ## Streaming Protocol Bridge (ProcessStream, stream.go) -/

/-- One line read from the backend stream, after the SSE framing performed at
the top of the `ProcessStream` loop: blank lines and lines without the
`data: ` marker are skipped, `data: [DONE]` ends the stream, chunks whose
JSON fails to parse are logged and skipped, and everything else is a parsed
`CompletionResponse`. -/
inductive StreamLine where
  | blank
  | other (raw : String)
  | done
  | malformed
  | chunk (c : CompletionResponse)
  deriving DecidableEq, Repr

/-- Caller-visible lifecycle events emitted by the bridge.  The
`message_start` payload (message id, model, empty usage) carries no
information the claims depend on, so the event is a bare marker; the final
`data: [DONE]\n\n` write is `doneMarker`. -/
inductive SEvent where
  | messageStart
  | contentBlockStart (index : Nat)
  | ping
  | contentBlockDelta (index : Nat) (text : String)
  | contentBlockStop (index : Nat)
  | messageDelta (stopReason : String) (outputTokens : Nat)
  | messageStop
  | doneMarker
  deriving DecidableEq, Repr

/-- The local state of `ProcessStream`'s read loop (stream.go lines 829-835).
`toolIndex` starts at `-1` and — tool-call handling being unimplemented in
the source ("currently not part of Copilot API") — is never assigned, and
`lastToolIndex` stays `0`. -/
structure BridgeState where
  toolIndex : Int
  accumulatedText : String
  textSent : Bool
  textBlockClosed : Bool
  outputTokens : Nat
  hasSentStopReason : Bool
  lastToolIndex : Nat
  deriving DecidableEq, Repr

/-- Initial loop state of `ProcessStream`. -/
def initialBridgeState : BridgeState :=
  { toolIndex := -1
    accumulatedText := ""
    textSent := false
    textBlockClosed := false
    outputTokens := 0
    hasSentStopReason := false
    lastToolIndex := 0 }

/-- Result of handling one parsed chunk: the new state, the events emitted,
and whether the Go loop executed `break` (which happens exactly after the
terminal sequence is written). -/
structure StepOut where
  state : BridgeState
  events : List SEvent
  brk : Bool

/-- The `content_block_stop` events for tool blocks `1..lastToolIndex`
(stream.go lines 909-918 and 987-996). -/
def toolStops (s : BridgeState) : List SEvent :=
  if s.toolIndex ≠ -1 then
    (List.range s.lastToolIndex).map (fun i => SEvent.contentBlockStop (i + 1))
  else []

/-- Handling of one parsed `CompletionResponse` chunk inside the read loop
(stream.go lines 858-980): extract usage, append and forward delta text,
and on the first non-empty finish reason emit the terminal sequence and
break. -/
def processChunk (s : BridgeState) (c : CompletionResponse) : StepOut :=
  let outputTokens := if 0 < c.promptTokens then c.promptTokens else s.outputTokens
  let outputTokens := if 0 < c.completionTokens then c.completionTokens else outputTokens
  let s := { s with outputTokens := outputTokens }
  match c.choices.head? with
  | none => { state := s, events := [], brk := false }
  | some choice =>
    let deltaContent := match choice.deltaContent with
      | some str => str
      | none => ""
    let step1 : BridgeState × List SEvent :=
      if deltaContent ≠ "" then
        let s := { s with accumulatedText := s.accumulatedText ++ deltaContent }
        if s.toolIndex = -1 ∧ s.textBlockClosed = false then
          ({ s with textSent := true }, [SEvent.contentBlockDelta 0 deltaContent])
        else (s, [])
      else (s, [])
    let s := step1.1
    let deltaEvents := step1.2
    if choice.finishReason ≠ "" ∧ s.hasSentStopReason = false then
      let s := { s with hasSentStopReason := true }
      let step2 : BridgeState × List SEvent :=
        if s.textBlockClosed = false then
          let flushEvents :=
            if s.accumulatedText ≠ "" ∧ s.textSent = false then
              [SEvent.contentBlockDelta 0 s.accumulatedText]
            else []
          ({ s with textBlockClosed := true }, flushEvents ++ [SEvent.contentBlockStop 0])
        else (s, [])
      let s := step2.1
      let textStopEvents := step2.2
      let stopReason :=
        if choice.finishReason = "length" then "max_tokens"
        else if choice.finishReason = "tool_calls" then "tool_use"
        else "end_turn"
      { state := s
        events := deltaEvents ++ toolStops s ++ textStopEvents ++
          [SEvent.messageDelta stopReason s.outputTokens, SEvent.messageStop,
           SEvent.doneMarker]
        brk := true }
    else { state := s, events := deltaEvents, brk := false }

/-- The closing code after the read loop (stream.go lines 984-1033): when no
finish reason was observed, close open blocks and emit the default terminal
sequence with stop reason `end_turn`. -/
def bridgeEpilogue (s : BridgeState) : List SEvent :=
  if s.hasSentStopReason = false then
    toolStops s ++
    (if s.textBlockClosed = false then [SEvent.contentBlockStop 0] else []) ++
    [SEvent.messageDelta "end_turn" s.outputTokens, SEvent.messageStop,
     SEvent.doneMarker]
  else []

/-- The read loop of `ProcessStream` (stream.go lines 837-982) followed by
the epilogue: skipped lines recurse, `[DONE]` and end-of-input fall through
to the epilogue, and a chunk that triggered the terminal sequence breaks
(the epilogue then emits nothing because `hasSentStopReason` is set). -/
def bridgeLoop (s : BridgeState) : List StreamLine → List SEvent
  | [] => bridgeEpilogue s
  | StreamLine.blank :: rest => bridgeLoop s rest
  | StreamLine.other _ :: rest => bridgeLoop s rest
  | StreamLine.done :: _ => bridgeEpilogue s
  | StreamLine.malformed :: rest => bridgeLoop s rest
  | StreamLine.chunk c :: rest =>
    let out := processChunk s c
    if out.brk then out.events ++ bridgeEpilogue out.state
    else out.events ++ bridgeLoop out.state rest

/-- `StreamProcessor.ProcessStream`: the fixed prologue (`message_start`,
`content_block_start` for text block 0, keep-alive ping — stream.go lines
786-824) followed by the read loop over the backend stream. -/
def processStream (lines : List StreamLine) : List SEvent :=
  [SEvent.messageStart, SEvent.contentBlockStart 0, SEvent.ping] ++
    bridgeLoop initialBridgeState lines

/-- Whether a stream line carries a non-empty finish reason in its first
choice, i.e. would trigger the bridge's finish handling. -/
def hasFinish : StreamLine → Bool
  | StreamLine.chunk c =>
    match c.choices.head? with
    | some ch => decide (ch.finishReason ≠ "")
    | none => false
  | _ => false

/-- Whether an event is a `message_delta` (with any payload). -/
def isMessageDeltaEvent : SEvent → Bool
  | SEvent.messageDelta _ _ => true
  | _ => false

/-! ## Response Formatter (convertCopilotToAnthropicResponse, conversion.go) -/

/-- One block of an Anthropic-style response (`anthropic.Content`); the
`ToolCalls` field is never written by the converted code and is omitted. -/
structure AContentBlock where
  type : String
  text : String
  deriving DecidableEq, Repr

/-- Anthropic-style response (`anthropic.Response`).  The `id` field is
`msg_` followed by a fresh UUID in the source; the UUID is abstracted away. -/
structure AResponse where
  id : String
  type : String
  role : String
  content : List AContentBlock
  model : String
  stopReason : String
  deriving DecidableEq, Repr

/-- `convertCopilotToAnthropicResponse` (conversion.go lines 170-202): take
the first choice's message content as the sole text block (empty content or
no choices give an empty block list), and map the backend finish reason to
the Anthropic stop reason (`length` to `max_tokens`, `tool_calls` to
`tool_use`, default `end_turn`). -/
def convertCopilotToAnthropicResponse (response : CompletionResponse)
    (model : String) : AResponse :=
  let contents : List AContentBlock :=
    match response.choices.head? with
    | some c => if c.messageContent ≠ "" then [⟨"text", c.messageContent⟩] else []
    | none => []
  let stopReason :=
    match response.choices.head? with
    | some c =>
      if c.finishReason = "length" then "max_tokens"
      else if c.finishReason = "tool_calls" then "tool_use"
      else "end_turn"
    | none => "end_turn"
  { id := "msg_", type := "message", role := "assistant", content := contents,
    model := model, stopReason := stopReason }

/-! ## Credential Lifecycle Manager (GetCopilotToken, internal/copilot/auth.go)

The network and file effects of `GetCopilotToken` are abstracted into an
`AuthWorld` of oracle results consumed in call order: `loadResult` is the
outcome of `LoadAuthToken` (the trimmed credential-file content, or a read
error), `deviceCodeResults`/`deviceFlowResults` are the outcomes of
successive `RequestDeviceCode`/`handleDeviceCodeFlow` calls, and
`exchangeResults` the outcomes of successive `fetchNewToken` calls.  The
function also records the trace of operations it performed. -/

/-- An operation performed by `GetCopilotToken`. -/
inductive AuthEv where
  | loadTok
  | reqDevice
  | devFlow
  | exch
  deriving DecidableEq, Repr

/-- Oracle results for one run of `GetCopilotToken`. -/
structure AuthWorld where
  debug : Bool
  loadResult : Except String String
  deviceCodeResults : List (Except String Unit)
  deviceFlowResults : List (Except String String)
  exchangeResults : List (Except String String)

/-- Outcome of `GetCopilotToken`: a Copilot API token, an error, or a Go
runtime panic. -/
inductive AuthOutcome where
  | ok (token : String)
  | err (msg : String)
  | panicked
  deriving DecidableEq, Repr

/-- The next oracle result from a list (a missing entry stands for a call
the run never makes). -/
def headOracle {α : Type} (l : List (Except String α)) : Except String α :=
  l.headD (Except.error "no oracle response")

/-- `AuthManager.GetCopilotToken` (auth.go lines 45-92).  When the persisted
token loads, the source formats a masked copy for the debug log with
`authToken[:5]` and `authToken[len(authToken)-5:]` (line 63-64); Go
evaluates these slice expressions before calling `debugLog`, so a loaded
token shorter than 5 bytes panics with an index-out-of-range error
regardless of the debug flag.  Afterwards the long-lived token is always
exchanged for a Copilot API token; on exchange failure the device-code flow
is restarted once and a single further exchange decides the outcome. -/
def getCopilotToken (w : AuthWorld) : AuthOutcome × List AuthEv :=
  match w.loadResult with
  | Except.error _ =>
    match headOracle w.deviceCodeResults with
    | Except.error e =>
      (AuthOutcome.err ("failed to request device code: " ++ e),
       [AuthEv.loadTok, AuthEv.reqDevice])
    | Except.ok _ =>
      match headOracle w.deviceFlowResults with
      | Except.error e =>
        (AuthOutcome.err e, [AuthEv.loadTok, AuthEv.reqDevice, AuthEv.devFlow])
      | Except.ok _ =>
        match headOracle w.exchangeResults with
        | Except.ok tok =>
          (AuthOutcome.ok tok,
           [AuthEv.loadTok, AuthEv.reqDevice, AuthEv.devFlow, AuthEv.exch])
        | Except.error _ =>
          match headOracle (w.deviceCodeResults.drop 1) with
          | Except.error e =>
            (AuthOutcome.err
              ("failed to request device code after token exchange failure: " ++ e),
             [AuthEv.loadTok, AuthEv.reqDevice, AuthEv.devFlow, AuthEv.exch,
              AuthEv.reqDevice])
          | Except.ok _ =>
            match headOracle (w.deviceFlowResults.drop 1) with
            | Except.error e =>
              (AuthOutcome.err e,
               [AuthEv.loadTok, AuthEv.reqDevice, AuthEv.devFlow, AuthEv.exch,
                AuthEv.reqDevice, AuthEv.devFlow])
            | Except.ok _ =>
              match headOracle (w.exchangeResults.drop 1) with
              | Except.ok tok =>
                (AuthOutcome.ok tok,
                 [AuthEv.loadTok, AuthEv.reqDevice, AuthEv.devFlow, AuthEv.exch,
                  AuthEv.reqDevice, AuthEv.devFlow, AuthEv.exch])
              | Except.error e =>
                (AuthOutcome.err e,
                 [AuthEv.loadTok, AuthEv.reqDevice, AuthEv.devFlow, AuthEv.exch,
                  AuthEv.reqDevice, AuthEv.devFlow, AuthEv.exch])
  | Except.ok authToken =>
    if authToken.length < 5 then
      (AuthOutcome.panicked, [AuthEv.loadTok])
    else
      match headOracle w.exchangeResults with
      | Except.ok tok => (AuthOutcome.ok tok, [AuthEv.loadTok, AuthEv.exch])
      | Except.error _ =>
        match headOracle w.deviceCodeResults with
        | Except.error e =>
          (AuthOutcome.err
            ("failed to request device code after token exchange failure: " ++ e),
           [AuthEv.loadTok, AuthEv.exch, AuthEv.reqDevice])
        | Except.ok _ =>
          match headOracle w.deviceFlowResults with
          | Except.error e =>
            (AuthOutcome.err e,
             [AuthEv.loadTok, AuthEv.exch, AuthEv.reqDevice, AuthEv.devFlow])
          | Except.ok _ =>
            match headOracle (w.exchangeResults.drop 1) with
            | Except.ok tok =>
              (AuthOutcome.ok tok,
               [AuthEv.loadTok, AuthEv.exch, AuthEv.reqDevice, AuthEv.devFlow,
                AuthEv.exch])
            | Except.error e =>
              (AuthOutcome.err e,
               [AuthEv.loadTok, AuthEv.exch, AuthEv.reqDevice, AuthEv.devFlow,
                AuthEv.exch])

/-! ## String utilities

The Go code manipulates strings with `strings.Contains`, `strings.Split`,
`strings.HasPrefix` and byte slicing.  Every string handled at those sites
is ASCII, where Go's byte indexing coincides with character indexing, so the
embedding works on the character list `String.data`. -/

/-- `strings.Contains`-style substring test on character lists: some suffix
of `s` starts with `sep`. -/
def containsSub (sep s : List Char) : Bool :=
  (List.range (s.length + 1)).any (fun i => sep.isPrefixOf (s.drop i))

/-- `strings.Contains s sub`. -/
def strContains (s sub : String) : Bool := containsSub sub.data s.data

/-- `strings.Split` on a non-empty separator, fuelled to make the recursion
structural: each step either consumes one leading character or a full
separator occurrence, so fuel `s.length + 1` always suffices (the fuel-zero
fallback is unreachable from `splitSub`). -/
def splitSubFuel (sep : List Char) : Nat → List Char → List (List Char)
  | 0, s => [s]
  | fuel + 1, s =>
    if sep ≠ [] ∧ sep.isPrefixOf s then
      [] :: splitSubFuel sep fuel (s.drop sep.length)
    else
      match s with
      | [] => [[]]
      | c :: rest =>
        match splitSubFuel sep fuel rest with
        | [] => [[c]]
        | seg :: segs => (c :: seg) :: segs

/-- `strings.Split s sep` for non-empty `sep`: the segments of `s` around
the leftmost-first non-overlapping occurrences of `sep`. -/
def splitSub (sep s : List Char) : List (List Char) :=
  splitSubFuel sep (s.length + 1) s

/-! ## Token masking (logWithPrefix)

`logWithPrefix` appears three times with identical bodies
(internal/proxy/anthropic/utils.go lines 30-47, internal/copilot/client.go
lines 53-71, internal/proxy/handler.go lines 214-232): if the message
contains `Bearer `, split on it, and when the segment after the first
occurrence is longer than 20 bytes replace everything from that segment on
by its first 5 characters, `...`, and its last 5 characters. -/

/-- The separator `"Bearer "` used by the masking code. -/
def bearerMarker : List Char := "Bearer ".data

/-- The ellipsis inserted between the kept ends of a masked token. -/
def maskDots : List Char := "...".data

/-- The masking transformation of `logWithPrefix`, on character lists.
`parts.get? 1` is Go's `parts[1]` (guarded by `len(parts) > 1`), and the
slicing `tokenPart[:5]`/`tokenPart[len(tokenPart)-5:]` becomes
`take`/`drop`. -/
def maskMessageL (message : List Char) : List Char :=
  if containsSub bearerMarker message then
    let parts := splitSub bearerMarker message
    if 1 < parts.length then
      let tokenPart := (parts.get? 1).getD []
      if 20 < tokenPart.length then
        (parts.get? 0).getD [] ++ bearerMarker ++
          (tokenPart.take 5 ++ maskDots ++ tokenPart.drop (tokenPart.length - 5))
      else message
    else message
  else message

/-- The masking transformation of `logWithPrefix`, on strings. -/
def maskMessage (message : String) : String := ⟨maskMessageL message.data⟩

/-! ## Model Alias Resolver (config.go ValidateModel, handler.go mapModel) -/

/-- The supported-model table of internal/config/config.go lines 19-34:
`(ID, RealID, Provider)`. -/
def models : List (String × String × String) :=
  [("gpt-4", "gpt-4", "OpenAI"),
   ("4", "gpt-4", "OpenAI"),
   ("gpt-4o", "gpt-4o", "OpenAI"),
   ("4o", "gpt-4o", "OpenAI"),
   ("o1", "o1", "OpenAI"),
   ("o3-mini", "o3-mini", "OpenAI"),
   ("sonnet", "claude-3.7-sonnet", "Anthropic"),
   ("claude-3.5-sonnet", "claude-3.5-sonnet", "Anthropic"),
   ("claude-3.7-sonnet", "claude-3.7-sonnet", "Anthropic"),
   ("claude-3.7-sonnet-thought", "claude-3.7-sonnet-thought", "Anthropic"),
   ("gemini-2.0-flash", "gemini-2.0-flash-001", "Google"),
   ("gemini-2.5-pro", "gemini-2.5-pro-preview-03-25", "Google"),
   ("gemini-flash", "gemini-2.0-flash-001", "Google"),
   ("gemini-pro", "gemini-2.5-pro-preview-03-25", "Google")]

/-- `strings.ToLower`, as the per-character lowercase map on the string's
characters (Go lowercases each rune; on the ASCII model names handled here
this is `Char.toLower` pointwise). -/
def toLowerL (s : String) : String := ⟨s.data.map Char.toLower⟩

/-- `config.ValidateModel`: case-insensitive exact lookup in the model
table, returning the real model id.  The Go map is keyed by the lowercased
`ID`s (all already lowercase and pairwise distinct), so an ordered lookup is
equivalent. -/
def validateModel (modelName : String) : Option String :=
  (models.find? (fun m => m.1 == toLowerL modelName)).map (fun m => m.2.1)

/-- The fields of `anthropic.Handler` that the model-mapping code uses. -/
structure Handler where
  defaultModel : String
  useOpenAIModels : Bool
  bigModel : String
  smallModel : String
  debug : Bool

/-- The handler built by `NewHandler` when the `BIG_MODEL`/`SMALL_MODEL`
environment variables are unset (handler.go lines 44-55): `useOpenAIModels`
is always true, `bigModel` defaults to `gpt-4o` and `smallModel` to
`gpt-4o-mini`. -/
def defaultHandler : Handler :=
  { defaultModel := "gpt-4o", useOpenAIModels := true, bigModel := "gpt-4o",
    smallModel := "gpt-4o-mini", debug := false }

/-- The provider-tag stripping at the top of `mapModel`:
`strings.HasPrefix(model, "anthropic/")` followed by slicing off the
10-byte tag. -/
def trimProviderTag (model : String) : String :=
  if "anthropic/".data.isPrefixOf model.data then ⟨model.data.drop 10⟩
  else model

/-- `Handler.mapModel` (handler.go lines 211-251): empty names take the
default model; otherwise the provider tag is stripped and — when the
OpenAI-model mapping is active — any name containing `haiku` maps to the
configured small model and any name containing `sonnet` to the configured
big model.  The Go function's error result is always nil; the `Except`
carries that through. -/
def mapModel (h : Handler) (model : String) : Except String String :=
  if model = "" then Except.ok h.defaultModel
  else
    let model := trimProviderTag model
    if h.useOpenAIModels then
      if strContains (toLowerL model) "haiku" then Except.ok h.smallModel
      else if strContains (toLowerL model) "sonnet" then Except.ok h.bigModel
      else Except.ok model
    else Except.ok model

/-- The model-resolution segment of `Handler.ServeHTTP` (handler.go lines
111-131): map the requested model, overwrite `req.Model` with the mapped
name (`req.Model = modelToUse`), then validate the mapped name against the
model table; the failure message interpolates `modelToUse` and the
overwritten `req.Model`. -/
def resolveModel (h : Handler) (reqModel : String) : Except String String :=
  match mapModel h reqModel with
  | Except.error _ =>
    Except.error ("Invalid model requested: " ++ reqModel)
  | Except.ok modelToUse =>
    let reqModel := modelToUse
    match validateModel modelToUse with
    | none =>
      Except.error ("Invalid model requested: " ++ modelToUse ++
        " (mapped from " ++ reqModel ++ ")")
    | some realModelID => Except.ok realModelID

/-! ## Request Canonicalizer (convertAnthropicToCopilotMessages) -/

/-- One element of a `tool_result` block's list content, as classified by
`ParseToolResultContent` (conversion.go lines 213-238): a map with a string
`text` field (used directly whether or not its `type` is `text`), any other
map (whose JSON serialization the code emits), a plain string, or any other
value (rendered with `%v`).  Serialized forms are carried as opaque
strings. -/
inductive ToolResultItem where
  | textItem (text : String)
  | jsonItem (json : String)
  | strItem (s : String)
  | otherItem (dump : String)
  deriving DecidableEq, Repr

/-- The dynamic content of a `tool_result` block (conversion.go lines
205-255): nil, a string, a list of items, a map with `type: text` and a
string `text`, any other map (JSON-serialized), or any other value. -/
inductive ToolResultContent where
  | nil
  | str (s : String)
  | items (l : List ToolResultItem)
  | textDict (text : String)
  | jsonDict (json : String)
  | otherContent (dump : String)
  deriving DecidableEq, Repr

/-- `Handler.ParseToolResultContent` (conversion.go lines 205-255); list
content is folded in order with a trailing newline per item and then
trimmed (`strings.TrimSpace`). -/
def parseToolResultContent : ToolResultContent → String
  | ToolResultContent.nil => "No content provided"
  | ToolResultContent.str c => c
  | ToolResultContent.items l =>
    (l.foldl (fun acc item =>
      acc ++ (match item with
        | ToolResultItem.textItem t => t ++ "\n"
        | ToolResultItem.jsonItem j => j ++ "\n"
        | ToolResultItem.strItem s => s ++ "\n"
        | ToolResultItem.otherItem d => d ++ "\n")) "").trim
  | ToolResultContent.textDict t => t
  | ToolResultContent.jsonDict j => j
  | ToolResultContent.otherContent d => d

/-- One content block of an Anthropic-style message, as the conversion code
distinguishes them by their `type` field; `unknown` covers blocks the
`switch` ignores (missing or unrecognized type, or non-map entries).  The
`tool_use` input is carried in serialized form. -/
inductive ABlock where
  | text (t : String)
  | image
  | toolUse (id name inputJson : String)
  | toolResult (toolUseId : String) (content : ToolResultContent)
  | unknown
  deriving DecidableEq, Repr

/-- The dynamic `content` of an Anthropic message: a plain string, a block
array, or any other JSON shape (`invalid`, rejected by the conversion). -/
inductive AContent where
  | str (s : String)
  | blocks (bs : List ABlock)
  | invalid
  deriving DecidableEq, Repr

/-- `anthropic.Message`. -/
structure AMessage where
  role : String
  content : AContent
  deriving DecidableEq, Repr

/-- `anthropic.Tool`; the input schema is carried in its JSON-serialized
form (`json.Marshal` of the schema, `{}` on marshal failure). -/
structure Tool where
  name : String
  description : String
  inputSchemaJson : String
  deriving DecidableEq, Repr

/-- `anthropic.ToolChoice`. -/
structure ToolChoice where
  type : String
  deriving DecidableEq, Repr

/-- `anthropic.Request`. -/
structure ARequest where
  model : String
  maxTokens : Nat
  messages : List AMessage
  tools : List Tool
  toolChoice : Option ToolChoice
  system : String
  stream : Bool
  deriving DecidableEq, Repr

/-- `copilot.MessageContent`. -/
structure MessageContent where
  type : String
  text : String
  deriving DecidableEq, Repr

/-- The dynamic `Content` of a `copilot.Message`: a string or a
`[]MessageContent`. -/
inductive CContent where
  | str (s : String)
  | parts (items : List MessageContent)
  deriving DecidableEq, Repr

/-- `copilot.Message`. -/
structure CMessage where
  role : String
  content : CContent
  deriving DecidableEq, Repr

/-- `Message.GetStringContent`: the content if it is a string, else `""`. -/
def getStringContent : CContent → String
  | CContent.str s => s
  | _ => ""

/-- Whether a block is a `tool_result` block (the first pass over a
multi-block message, conversion.go lines 81-89). -/
def isToolResultBlock : ABlock → Bool
  | ABlock.toolResult _ _ => true
  | _ => false

/-- Conversion of one Anthropic message to zero or one Copilot messages
(the per-message body of `convertAnthropicToCopilotMessages`, conversion.go
lines 68-163): string content maps 1:1; a block array containing a
`tool_result` in a user message renders only text and tool-result blocks;
any other block array renders text, image, tool-use and tool-result blocks
in order; empty rendered text drops the message; any other content shape is
an error. -/
def convertOneMessage (msg : AMessage) : Except String (List CMessage) :=
  match msg.content with
  | AContent.str content => Except.ok [⟨msg.role, CContent.str content⟩]
  | AContent.blocks content =>
    let hasToolResult := content.any isToolResultBlock
    if hasToolResult ∧ msg.role = "user" then
      let textContent := content.foldl (fun acc block =>
        match block with
        | ABlock.text t => acc ++ t ++ "\n"
        | ABlock.toolResult toolUseId c =>
          acc ++ "Tool result for " ++ toolUseId ++ ":\n" ++
            parseToolResultContent c ++ "\n\n"
        | _ => acc) ""
      if textContent ≠ "" then Except.ok [⟨msg.role, CContent.str textContent⟩]
      else Except.ok []
    else
      let messageText := content.foldl (fun acc block =>
        match block with
        | ABlock.text t => acc ++ t ++ "\n"
        | ABlock.image => acc ++ "[Image content not displayed]\n"
        | ABlock.toolUse id name inputJson =>
          acc ++ "[Tool: " ++ name ++ " (ID: " ++ id ++ ")]\nInput: " ++
            inputJson ++ "\n\n"
        | ABlock.toolResult toolUseId c =>
          acc ++ "Tool result for " ++ toolUseId ++ ":\n" ++
            parseToolResultContent c ++ "\n\n"
        | ABlock.unknown => acc) ""
      if 0 < messageText.length then
        Except.ok [⟨msg.role, CContent.str messageText⟩]
      else Except.ok []
  | AContent.invalid => Except.error "unsupported message content format"

/-- Conversion of the conversation messages, in order (the loop of
conversion.go lines 68-164). -/
def convertMessages : List AMessage → Except String (List CMessage)
  | [] => Except.ok []
  | msg :: rest =>
    match convertOneMessage msg with
    | Except.error e => Except.error e
    | Except.ok out =>
      match convertMessages rest with
      | Except.error e => Except.error e
      | Except.ok tail => Except.ok (out ++ tail)

/-- The serialized tool catalogue (conversion.go lines 26-48): one entry per
tool (defaulting an empty description), plus the tool-choice line when its
type is `auto` or `any`. -/
def buildToolsMsg (tools : List Tool) (toolChoice : Option ToolChoice) : String :=
  let base := tools.foldl (fun acc tool =>
    let toolDescription :=
      if tool.description = "" then "Tool for " ++ tool.name ++ " operations"
      else tool.description
    acc ++ "- " ++ tool.name ++ ": " ++ toolDescription ++
      "\nInput Schema: " ++ tool.inputSchemaJson ++ "\n\n") "Available Tools:\n"
  match toolChoice with
  | some tc =>
    if tc.type = "auto" ∨ tc.type = "any" then
      base ++ "Tool Choice: " ++ tc.type ++ "\n"
    else base
  | none => base

/-- `Handler.convertAnthropicToCopilotMessages` (conversion.go lines
14-167): a non-empty system prompt becomes a leading system message; a
non-empty tool list appends the serialized catalogue to that system message
(or prepends a new system message when none exists); then the conversation
messages follow in order. -/
def convertAnthropicToCopilotMessages (req : ARequest) :
    Except String (List CMessage) :=
  let prologue : List CMessage :=
    if req.system ≠ "" then [⟨"system", CContent.str req.system⟩] else []
  let prologue : List CMessage :=
    if req.tools ≠ [] then
      let toolsMsg := buildToolsMsg req.tools req.toolChoice
      match prologue with
      | first :: restP =>
        if first.role = "system" then
          ⟨"system", CContent.str (getStringContent first.content ++ "\n\n" ++
            toolsMsg)⟩ :: restP
        else ⟨"system", CContent.str toolsMsg⟩ :: first :: restP
      | [] => [⟨"system", CContent.str toolsMsg⟩]
    else prologue
  match convertMessages req.messages with
  | Except.error e => Except.error e
  | Except.ok rest => Except.ok (prologue ++ rest)

/-! ## Token counting (estimateTokenCount, utils.go) -/

/-- `Handler.estimateTokenCount` (utils.go lines 67-93): sum, per message,
the character counts of the role, of the content (string length, or the sum
of the `Text` fields of complex content), plus 40 characters of per-message
overhead; divide by 4; floor the result at a minimum of 1. -/
def estimateTokenCount (messages : List CMessage) : Nat :=
  let charCount := messages.foldl (fun acc msg =>
    let contentCount :=
      match msg.content with
      | CContent.str content => content.length
      | CContent.parts items =>
        items.foldl (fun a item => a + item.text.length) 0
    acc + msg.role.length + contentCount + 40) 0
  let tokenCount := charCount / 4
  if tokenCount ≤ 0 then 1 else tokenCount

/-- The token-count computation of `Handler.handleTokenCount` (handler.go
lines 265-325) after model mapping: canonicalize the request's system
prompt, tools and messages, then estimate. -/
def countTokensInput (req : ARequest) : Except String Nat :=
  match convertAnthropicToCopilotMessages req with
  | Except.error e => Except.error e
  | Except.ok msgs => Except.ok (estimateTokenCount msgs)

/-- Shape of the loop output from any state still in streaming position
(no terminal sent, text block open, no tool blocks): whatever the input,
the emitted events are text deltas for block 0 followed by exactly one
closing sequence, and the stop reason defaults to `end_turn` when no finish
signal occurs in the input. -/
lemma bridgeLoop_shape (lines : List StreamLine) :
    ∀ s : BridgeState, s.toolIndex = -1 → s.hasSentStopReason = false →
      s.textBlockClosed = false →
      ∃ mid r t, bridgeLoop s lines =
          mid ++ [SEvent.contentBlockStop 0, SEvent.messageDelta r t,
            SEvent.messageStop, SEvent.doneMarker] ∧
        (∀ e ∈ mid, ∃ txt, e = SEvent.contentBlockDelta 0 txt) ∧
        ((∀ l ∈ lines, hasFinish l = false) → r = "end_turn") := by
  induction lines with
  | nil =>
    intro s h1 h2 h3
    exact ⟨[], "end_turn", s.outputTokens,
      by simp [bridgeLoop, bridgeEpilogue, toolStops, h1, h2, h3],
      by simp, fun _ => rfl⟩
  | cons line rest ih =>
    intro s h1 h2 h3
    cases line with
    | blank =>
      obtain ⟨mid, r, t, he, hmid, hr⟩ := ih s h1 h2 h3
      exact ⟨mid, r, t, by simpa [bridgeLoop] using he, hmid,
        fun hall => hr fun l hl => hall l (List.mem_cons_of_mem _ hl)⟩
    | other raw =>
      obtain ⟨mid, r, t, he, hmid, hr⟩ := ih s h1 h2 h3
      exact ⟨mid, r, t, by simpa [bridgeLoop] using he, hmid,
        fun hall => hr fun l hl => hall l (List.mem_cons_of_mem _ hl)⟩
    | malformed =>
      obtain ⟨mid, r, t, he, hmid, hr⟩ := ih s h1 h2 h3
      exact ⟨mid, r, t, by simpa [bridgeLoop] using he, hmid,
        fun hall => hr fun l hl => hall l (List.mem_cons_of_mem _ hl)⟩
    | done =>
      exact ⟨[], "end_turn", s.outputTokens,
        by simp [bridgeLoop, bridgeEpilogue, toolStops, h1, h2, h3],
        by simp, fun _ => rfl⟩
    | chunk c =>
      rcases hch : c.choices.head? with _ | choice
      · obtain ⟨mid, r, t, he, hmid, hr⟩ := ih { s with
          outputTokens := if 0 < c.completionTokens then c.completionTokens
            else if 0 < c.promptTokens then c.promptTokens else s.outputTokens }
          h1 h2 h3
        refine ⟨mid, r, t, ?_, hmid,
          fun hall => hr fun l hl => hall l (List.mem_cons_of_mem _ hl)⟩
        rw [← he]
        simp [bridgeLoop, processChunk, hch]
      · by_cases hfin : choice.finishReason = ""
        · -- no finish signal: forward optional delta and continue
          rcases hdc : choice.deltaContent with _ | str
          · obtain ⟨mid, r, t, he, hmid, hr⟩ := ih { s with
              outputTokens := if 0 < c.completionTokens then c.completionTokens
                else if 0 < c.promptTokens then c.promptTokens else s.outputTokens }
              h1 h2 h3
            refine ⟨mid, r, t, ?_, hmid,
              fun hall => hr fun l hl => hall l (List.mem_cons_of_mem _ hl)⟩
            rw [← he]
            simp [bridgeLoop, processChunk, hch, hdc, hfin]
          · by_cases hstr : str = ""
            · obtain ⟨mid, r, t, he, hmid, hr⟩ := ih { s with
                outputTokens := if 0 < c.completionTokens then c.completionTokens
                  else if 0 < c.promptTokens then c.promptTokens else s.outputTokens }
                h1 h2 h3
              refine ⟨mid, r, t, ?_, hmid,
                fun hall => hr fun l hl => hall l (List.mem_cons_of_mem _ hl)⟩
              rw [← he]
              simp [bridgeLoop, processChunk, hch, hdc, hstr, hfin]
            · obtain ⟨mid, r, t, he, hmid, hr⟩ := ih { s with
                accumulatedText := s.accumulatedText ++ str
                textSent := true
                outputTokens := if 0 < c.completionTokens then c.completionTokens
                  else if 0 < c.promptTokens then c.promptTokens else s.outputTokens }
                h1 h2 h3
              refine ⟨SEvent.contentBlockDelta 0 str :: mid, r, t, ?_, ?_,
                fun hall => hr fun l hl => hall l (List.mem_cons_of_mem _ hl)⟩
              · rw [List.cons_append, ← he]
                simp [bridgeLoop, processChunk, hch, hdc, hstr, hfin, h1, h3]
              · intro e hel
                rcases List.mem_cons.mp hel with hel | hel
                · exact ⟨str, hel⟩
                · exact hmid e hel
        · -- finish signal: the terminal sequence is emitted and the loop breaks
          have hnofin : ¬ (∀ l ∈ StreamLine.chunk c :: rest, hasFinish l = false) := by
            intro hall
            have := hall _ (List.mem_cons_self _ _)
            simp [hasFinish, hch, hfin] at this
          rcases hdc : choice.deltaContent with _ | str
          · refine ⟨(if s.accumulatedText ≠ "" ∧ s.textSent = false then
                [SEvent.contentBlockDelta 0 s.accumulatedText] else []),
              (if choice.finishReason = "length" then "max_tokens"
               else if choice.finishReason = "tool_calls" then "tool_use"
               else "end_turn"),
              (if 0 < c.completionTokens then c.completionTokens
               else if 0 < c.promptTokens then c.promptTokens else s.outputTokens),
              ?_, ?_, fun hall => absurd hall hnofin⟩
            · simp [bridgeLoop, processChunk, hch, hdc, hfin, h1, h2, h3,
                toolStops, bridgeEpilogue]
            · intro e hel
              split at hel
              · rcases List.mem_cons.mp hel with hel | hel
                · exact ⟨s.accumulatedText, hel⟩
                · simp at hel
              · simp at hel
          · by_cases hstr : str = ""
            · refine ⟨(if s.accumulatedText ≠ "" ∧ s.textSent = false then
                  [SEvent.contentBlockDelta 0 s.accumulatedText] else []),
                (if choice.finishReason = "length" then "max_tokens"
                 else if choice.finishReason = "tool_calls" then "tool_use"
                 else "end_turn"),
                (if 0 < c.completionTokens then c.completionTokens
                 else if 0 < c.promptTokens then c.promptTokens else s.outputTokens),
                ?_, ?_, fun hall => absurd hall hnofin⟩
              · simp [bridgeLoop, processChunk, hch, hdc, hstr, hfin, h1, h2, h3,
                  toolStops, bridgeEpilogue]
              · intro e hel
                split at hel
                · rcases List.mem_cons.mp hel with hel | hel
                  · exact ⟨s.accumulatedText, hel⟩
                  · simp at hel
                · simp at hel
            · refine ⟨[SEvent.contentBlockDelta 0 str],
                (if choice.finishReason = "length" then "max_tokens"
                 else if choice.finishReason = "tool_calls" then "tool_use"
                 else "end_turn"),
                (if 0 < c.completionTokens then c.completionTokens
                 else if 0 < c.promptTokens then c.promptTokens else s.outputTokens),
                ?_, ?_, fun hall => absurd hall hnofin⟩
              · simp [bridgeLoop, processChunk, hch, hdc, hstr, hfin, h1, h2, h3,
                  toolStops, bridgeEpilogue]
              · intro e hel
                rcases List.mem_cons.mp hel with hel | hel
                · exact ⟨str, hel⟩
                · simp at hel

/-- A list consisting only of block-0 text deltas contains no occurrence of
any other event. -/
lemma count_eq_zero_of_all_delta {mid : List SEvent}
    (h : ∀ e ∈ mid, ∃ txt, e = SEvent.contentBlockDelta 0 txt) {a : SEvent}
    (ha : ∀ txt, a ≠ SEvent.contentBlockDelta 0 txt) : mid.count a = 0 := by
  rw [List.count_eq_zero]
  intro hmem
  obtain ⟨txt, hh⟩ := h a hmem
  exact ha txt hh

/-- A list consisting only of block-0 text deltas contains no
`message_delta`. -/
lemma countP_messageDelta_eq_zero_of_all_delta {mid : List SEvent}
    (h : ∀ e ∈ mid, ∃ txt, e = SEvent.contentBlockDelta 0 txt) :
    mid.countP isMessageDeltaEvent = 0 := by
  rw [List.countP_eq_zero]
  intro e he
  obtain ⟨txt, rfl⟩ := h e he
  simp [isMessageDeltaEvent]

/-- C1: for every backend stream fed to `ProcessStream`, the emitted event
sequence contains exactly one `message_start` and one `message_stop`, a
matching `content_block_start`/`content_block_stop` pair for every block
index, and the ordered terminal sequence (block close, then `message_delta`,
then `message_stop`, then the `data: [DONE]` terminator) is emitted exactly
once, no matter how many increments, finish signals or stream-end
conditions are observed. -/
theorem bridge_event_counts (lines : List StreamLine) :
    ((processStream lines).count SEvent.messageStart = 1) ∧
    ((processStream lines).count SEvent.messageStop = 1) ∧
    (∀ i, (processStream lines).count (SEvent.contentBlockStart i) =
      (processStream lines).count (SEvent.contentBlockStop i)) ∧
    ((processStream lines).countP isMessageDeltaEvent = 1) ∧
    ((processStream lines).count SEvent.doneMarker = 1) ∧
    (∃ mid r t, processStream lines =
      ([SEvent.messageStart, SEvent.contentBlockStart 0, SEvent.ping] ++ mid) ++
        [SEvent.contentBlockStop 0, SEvent.messageDelta r t, SEvent.messageStop,
         SEvent.doneMarker] ∧
      ∀ e ∈ mid, ∃ txt, e = SEvent.contentBlockDelta 0 txt) := by
  obtain ⟨mid, r, t, he, hmid, -⟩ :=
    bridgeLoop_shape lines initialBridgeState rfl rfl rfl
  have hps : processStream lines =
      ([SEvent.messageStart, SEvent.contentBlockStart 0, SEvent.ping] ++ mid) ++
      [SEvent.contentBlockStop 0, SEvent.messageDelta r t, SEvent.messageStop,
        SEvent.doneMarker] := by
    simp [processStream, he]
  have hz : ∀ a : SEvent, (∀ txt, a ≠ SEvent.contentBlockDelta 0 txt) →
      mid.count a = 0 := fun a ha => count_eq_zero_of_all_delta hmid ha
  rw [hps]
  refine ⟨?_, ?_, ?_, ?_, ?_, ⟨mid, r, t, rfl, hmid⟩⟩
  · simp [List.count_append, List.count_cons, hz SEvent.messageStart (by simp)]
  · simp [List.count_append, List.count_cons, hz SEvent.messageStop (by simp)]
  · intro i
    by_cases hi : i = 0
    · subst hi
      simp [List.count_append, List.count_cons,
        hz (SEvent.contentBlockStart 0) (by simp),
        hz (SEvent.contentBlockStop 0) (by simp)]
    · simp [List.count_append, List.count_cons, hi,
        hz (SEvent.contentBlockStart i) (by simp),
        hz (SEvent.contentBlockStop i) (by simp)]
  · simp [List.countP_append, List.countP_cons,
      countP_messageDelta_eq_zero_of_all_delta hmid, isMessageDeltaEvent]
  · simp [List.count_append, List.count_cons, hz SEvent.doneMarker (by simp)]

/-- C2: when the backend stream ends (EOF or `[DONE]`) without the bridge
ever observing a non-empty finish reason, `ProcessStream` still emits the
complete closing sequence — `content_block_stop` for block 0, a
`message_delta` with stop reason `end_turn`, `message_stop`, then the
terminator — so the caller-visible stream never ends mid-block. -/
theorem early_termination_closes_stream (lines : List StreamLine)
    (hnf : ∀ l ∈ lines, hasFinish l = false) :
    ∃ mid t, processStream lines =
      ([SEvent.messageStart, SEvent.contentBlockStart 0, SEvent.ping] ++ mid) ++
        [SEvent.contentBlockStop 0, SEvent.messageDelta "end_turn" t,
         SEvent.messageStop, SEvent.doneMarker] ∧
      ∀ e ∈ mid, ∃ txt, e = SEvent.contentBlockDelta 0 txt := by
  obtain ⟨mid, r, t, he, hmid, hr⟩ :=
    bridgeLoop_shape lines initialBridgeState rfl rfl rfl
  rw [hr hnf] at he
  exact ⟨mid, t, by simp [processStream, he], hmid⟩

/-- Witness for C2: a backend stream that closes after two text increments
with no finish reason still produces the full terminal sequence. -/
theorem early_termination_closes_stream_witness :
    (∀ l ∈ [StreamLine.chunk ⟨[⟨"", some "Hel", ""⟩], 0, 0, 0⟩,
        StreamLine.chunk ⟨[⟨"", some "lo", ""⟩], 0, 0, 0⟩],
      hasFinish l = false) ∧
    (∃ mid t, processStream [StreamLine.chunk ⟨[⟨"", some "Hel", ""⟩], 0, 0, 0⟩,
        StreamLine.chunk ⟨[⟨"", some "lo", ""⟩], 0, 0, 0⟩] =
      ([SEvent.messageStart, SEvent.contentBlockStart 0, SEvent.ping] ++ mid) ++
        [SEvent.contentBlockStop 0, SEvent.messageDelta "end_turn" t,
         SEvent.messageStop, SEvent.doneMarker] ∧
      ∀ e ∈ mid, ∃ txt, e = SEvent.contentBlockDelta 0 txt) :=
  ⟨by decide, early_termination_closes_stream _ (by decide)⟩

/-- C3: every backend finish reason is mapped identically by the Streaming
Protocol Bridge (in its `message_delta`) and the non-streaming Response
Formatter (in `stop_reason`): `length` to `max_tokens`, `tool_calls` to
`tool_use`, anything else to `end_turn`. -/
theorem finish_reason_mapping (fr : String) (hfr : fr ≠ "") (mc : String)
    (tail : List Choice) (pt ct tt : Nat) (model : String) :
    processStream [StreamLine.chunk ⟨[⟨"", none, fr⟩], 0, 0, 0⟩] =
      [SEvent.messageStart, SEvent.contentBlockStart 0, SEvent.ping,
       SEvent.contentBlockStop 0,
       SEvent.messageDelta (if fr = "length" then "max_tokens"
         else if fr = "tool_calls" then "tool_use" else "end_turn") 0,
       SEvent.messageStop, SEvent.doneMarker] ∧
    (convertCopilotToAnthropicResponse ⟨⟨mc, none, fr⟩ :: tail, pt, ct, tt⟩
        model).stopReason =
      (if fr = "length" then "max_tokens" else if fr = "tool_calls"
        then "tool_use" else "end_turn") := by
  constructor
  · simp [processStream, bridgeLoop, processChunk, bridgeEpilogue,
      initialBridgeState, toolStops, hfr]
  · simp [convertCopilotToAnthropicResponse]

/-- Witness for C3: the finish reason `tool_calls` maps to `tool_use` in
both the bridge and the formatter. -/
theorem finish_reason_mapping_witness :
    ("tool_calls" ≠ "") ∧
    (processStream [StreamLine.chunk ⟨[⟨"", none, "tool_calls"⟩], 0, 0, 0⟩] =
      [SEvent.messageStart, SEvent.contentBlockStart 0, SEvent.ping,
       SEvent.contentBlockStop 0, SEvent.messageDelta "tool_use" 0,
       SEvent.messageStop, SEvent.doneMarker] ∧
     (convertCopilotToAnthropicResponse ⟨[⟨"x", none, "tool_calls"⟩], 1, 2, 3⟩
        "m").stopReason = "tool_use") :=
  ⟨by decide, by
    simpa using finish_reason_mapping "tool_calls" (by decide) "x" [] 1 2 3 "m"⟩

/-- C4: when a persisted credential loads successfully (and is long enough
to survive the debug-log masking) but the exchange of that long-lived token
for a backend API token fails, `GetCopilotToken` restarts the device
authorization exactly once, performs at most one further exchange, and
either returns that second exchange's token or surfaces a failure — it
never retries more than once and never loops. -/
theorem loaded_token_single_retry (w : AuthWorld) (tok e : String)
    (hload : w.loadResult = Except.ok tok) (hlen : 5 ≤ tok.length)
    (hexch : headOracle w.exchangeResults = Except.error e) :
    ((getCopilotToken w).2.count AuthEv.reqDevice = 1) ∧
    ((getCopilotToken w).2.count AuthEv.exch ≤ 2) ∧
    ((∃ t, (getCopilotToken w).1 = AuthOutcome.ok t ∧
        headOracle (w.exchangeResults.drop 1) = Except.ok t) ∨
     (∃ m, (getCopilotToken w).1 = AuthOutcome.err m)) := by
  have hlen' : ¬ tok.length < 5 := by omega
  rcases hdc : headOracle w.deviceCodeResults with e1 | u
  · refine ⟨?_, ?_, Or.inr
      ⟨"failed to request device code after token exchange failure: " ++ e1, ?_⟩⟩ <;>
      simp [getCopilotToken, hload, hlen', hexch, hdc, List.count_cons]
  · rcases hdf : headOracle w.deviceFlowResults with e2 | tok2
    · refine ⟨?_, ?_, Or.inr ⟨e2, ?_⟩⟩ <;>
        simp [getCopilotToken, hload, hlen', hexch, hdc, hdf, List.count_cons]
    · rcases hex2 : headOracle (w.exchangeResults.drop 1) with e3 | tok3 <;>
        rw [List.drop_one] at hex2
      · refine ⟨?_, ?_, Or.inr ⟨e3, ?_⟩⟩ <;>
          simp [getCopilotToken, hload, hlen', hexch, hdc, hdf, hex2,
            List.count_cons]
      · refine ⟨?_, ?_, Or.inl ⟨tok3, ?_, ?_⟩⟩ <;>
          simp [getCopilotToken, hload, hlen', hexch, hdc, hdf, hex2,
            List.drop_one, List.count_cons]

/-- Witness for C4: a run whose loaded token fails its first exchange makes
exactly one device-flow restart and succeeds on the second exchange. -/
theorem loaded_token_single_retry_witness :
    ((⟨true, Except.ok "abcde", [Except.ok ()], [Except.ok "newtok"],
        [Except.error "expired", Except.ok "apitok"]⟩ : AuthWorld).loadResult =
      Except.ok "abcde") ∧
    (5 ≤ ("abcde" : String).length) ∧
    (headOracle (⟨true, Except.ok "abcde", [Except.ok ()], [Except.ok "newtok"],
        [Except.error "expired", Except.ok "apitok"]⟩ : AuthWorld).exchangeResults =
      Except.error "expired") ∧
    (((getCopilotToken ⟨true, Except.ok "abcde", [Except.ok ()],
        [Except.ok "newtok"], [Except.error "expired", Except.ok "apitok"]⟩).2.count
        AuthEv.reqDevice = 1) ∧
     ((getCopilotToken ⟨true, Except.ok "abcde", [Except.ok ()],
        [Except.ok "newtok"], [Except.error "expired", Except.ok "apitok"]⟩).2.count
        AuthEv.exch ≤ 2) ∧
     ((∃ t, (getCopilotToken ⟨true, Except.ok "abcde", [Except.ok ()],
          [Except.ok "newtok"], [Except.error "expired", Except.ok "apitok"]⟩).1 =
            AuthOutcome.ok t ∧
        headOracle ((⟨true, Except.ok "abcde", [Except.ok ()], [Except.ok "newtok"],
          [Except.error "expired", Except.ok "apitok"]⟩ : AuthWorld).exchangeResults.drop
            1) = Except.ok t) ∨
      (∃ m, (getCopilotToken ⟨true, Except.ok "abcde", [Except.ok ()],
          [Except.ok "newtok"], [Except.error "expired", Except.ok "apitok"]⟩).1 =
            AuthOutcome.err m))) :=
  ⟨rfl, by decide,
    rfl,
    loaded_token_single_retry _ "abcde" "expired" rfl (by decide) rfl⟩

/-- C5 counterexample: the exact alias `sonnet` (table entry
`sonnet → claude-3.7-sonnet`) does not resolve via the exact-alias table:
`mapModel` applies the family-substring rule first and returns the
configured big model, so the request pipeline resolves `sonnet` to `gpt-4o`,
not to `claude-3.7-sonnet`. -/
theorem family_rule_precedes_exact_alias_cex :
    mapModel defaultHandler "sonnet" = Except.ok "gpt-4o" ∧
    validateModel "sonnet" = some "claude-3.7-sonnet" ∧
    resolveModel defaultHandler "sonnet" = Except.ok "gpt-4o" ∧
    ("gpt-4o" : String) ≠ "claude-3.7-sonnet" :=
  ⟨rfl, rfl, rfl, by decide⟩

/-- C5 (amended): the family-substring rules are evaluated before — not
after — exact-alias lookup: whenever the OpenAI-model mapping is active, a
non-empty name that (after provider-tag stripping and lowercasing) contains
`sonnet` but not `haiku` maps to the configured big model even when it is an
exact alias, and exact-alias lookup is applied only to the family-mapped
result. -/
theorem family_rule_precedes_exact_alias (h : Handler) (m : String)
    (hm : m ≠ "") (ho : h.useOpenAIModels = true)
    (hhaiku : strContains (toLowerL (trimProviderTag m)) "haiku" = false)
    (hsonnet : strContains (toLowerL (trimProviderTag m)) "sonnet" = true) :
    mapModel h m = Except.ok h.bigModel ∧
    resolveModel h m = (match validateModel h.bigModel with
      | some realModelID => Except.ok realModelID
      | none => Except.error ("Invalid model requested: " ++ h.bigModel ++
          " (mapped from " ++ h.bigModel ++ ")")) := by
  have h1 : mapModel h m = Except.ok h.bigModel := by
    simp [mapModel, hm, ho, hhaiku, hsonnet]
  refine ⟨h1, ?_⟩
  cases hv : validateModel h.bigModel <;>
    simp [resolveModel, h1, hv]

/-- Witness for C5 (amended): the exact alias `sonnet` goes through the
family rule to the default big model `gpt-4o`, which then passes exact-alias
validation. -/
theorem family_rule_precedes_exact_alias_witness :
    (("sonnet" : String) ≠ "") ∧
    (defaultHandler.useOpenAIModels = true) ∧
    (strContains (toLowerL (trimProviderTag "sonnet")) "haiku" = false) ∧
    (strContains (toLowerL (trimProviderTag "sonnet")) "sonnet" = true) ∧
    (mapModel defaultHandler "sonnet" = Except.ok defaultHandler.bigModel ∧
     resolveModel defaultHandler "sonnet" =
       (match validateModel defaultHandler.bigModel with
        | some realModelID => Except.ok realModelID
        | none => Except.error ("Invalid model requested: " ++
            defaultHandler.bigModel ++ " (mapped from " ++
            defaultHandler.bigModel ++ ")"))) :=
  ⟨by decide, rfl, by decide, by decide,
    family_rule_precedes_exact_alias defaultHandler "sonnet" (by decide) rfl
      (by decide) (by decide)⟩

/-- C6: requesting the unknown model `my-haiku` (with the default
`gpt-4o-mini` small model, which is absent from the model table) produces
the error message `Invalid model requested: gpt-4o-mini (mapped from
gpt-4o-mini)`: because `ServeHTTP` overwrites `req.Model` with the mapped
name before formatting the error, the message carries the mapped name twice
and the caller-supplied name `my-haiku` does not appear at all. -/
theorem unknown_model_error_loses_original :
    resolveModel defaultHandler "my-haiku" =
      Except.error
        "Invalid model requested: gpt-4o-mini (mapped from gpt-4o-mini)" ∧
    strContains "Invalid model requested: gpt-4o-mini (mapped from gpt-4o-mini)"
      "my-haiku" = false :=
  ⟨rfl, by decide⟩

/-- C7: when a request carries both a non-empty system prompt and a
non-empty tool list, canonicalization produces exactly one leading
system-role message, whose content is the system prompt followed by the
serialized tool catalogue, ahead of the converted conversation — the
catalogue is never dropped and no second system message is created. -/
theorem system_and_tools_single_message (req : ARequest)
    (rest : List CMessage) (hs : req.system ≠ "") (ht : req.tools ≠ [])
    (hc : convertMessages req.messages = Except.ok rest) :
    convertAnthropicToCopilotMessages req =
      Except.ok (⟨"system", CContent.str (req.system ++ "\n\n" ++
        buildToolsMsg req.tools req.toolChoice)⟩ :: rest) := by
  simp [convertAnthropicToCopilotMessages, hs, ht, hc, getStringContent]

/-- Witness for C7: a request with a system prompt, one tool and one user
turn canonicalizes to a single merged system message followed by the user
message. -/
theorem system_and_tools_single_message_witness :
    ((⟨"m", 1, [⟨"user", AContent.str "hi"⟩],
        [⟨"get_weather", "", "\x7b\x7d"⟩], none, "You are helpful",
        false⟩ : ARequest).system ≠ "") ∧
    ((⟨"m", 1, [⟨"user", AContent.str "hi"⟩],
        [⟨"get_weather", "", "\x7b\x7d"⟩], none, "You are helpful",
        false⟩ : ARequest).tools ≠ []) ∧
    (convertMessages [⟨"user", AContent.str "hi"⟩] =
      Except.ok [⟨"user", CContent.str "hi"⟩]) ∧
    (convertAnthropicToCopilotMessages
        ⟨"m", 1, [⟨"user", AContent.str "hi"⟩],
          [⟨"get_weather", "", "\x7b\x7d"⟩], none, "You are helpful", false⟩ =
      Except.ok (⟨"system", CContent.str ("You are helpful" ++ "\n\n" ++
          buildToolsMsg [⟨"get_weather", "", "\x7b\x7d"⟩] none)⟩ ::
        [⟨"user", CContent.str "hi"⟩])) :=
  ⟨by decide, by decide, rfl,
    system_and_tools_single_message _ _ (by decide) (by decide) rfl⟩

/-- C8 counterexample: `count_tokens` on the single message
`{role: user, content: "Hello, how are you?"}` returns 15, not the claimed
`(19 + 40)/4 = 14`: `estimateTokenCount` also counts the four characters of
the role name, giving `(4 + 19 + 40)/4 = 15`. -/
theorem token_count_hello_cex :
    countTokensInput ⟨"claude-3.7-sonnet", 100,
        [⟨"user", AContent.str "Hello, how are you?"⟩], [], none, "",
        false⟩ = Except.ok 15 ∧
    estimateTokenCount [⟨"user", CContent.str "Hello, how are you?"⟩] = 15 ∧
    (19 + 40) / 4 = 14 ∧ (15 : Nat) ≠ 14 :=
  ⟨rfl, by decide, by decide, by decide⟩

/-- C8 (amended): `count_tokens` on that message returns a value that is at
least 1 and equals the heuristic value `(4 + 19 + 40)/4 = 15`, the
character-count heuristic including the role name's characters alongside
the content and the fixed 40-character per-message overhead. -/
theorem token_count_hello_value :
    countTokensInput ⟨"claude-3.7-sonnet", 100,
        [⟨"user", AContent.str "Hello, how are you?"⟩], [], none, "",
        false⟩ = Except.ok 15 ∧
    estimateTokenCount [⟨"user", CContent.str "Hello, how are you?"⟩] =
      ("user".length + "Hello, how are you?".length + 40) / 4 ∧
    1 ≤ estimateTokenCount [⟨"user", CContent.str "Hello, how are you?"⟩] :=
  ⟨rfl, by decide, by decide⟩

/-- A list is a prefix of itself followed by anything. -/
lemma isPrefixOf_append_self (l t : List Char) :
    l.isPrefixOf (l ++ t) = true := by
  induction l with
  | nil => cases t <;> rfl
  | cons c cs ih => simp [List.isPrefixOf, ih]

/-- A string that starts with `sep` contains `sep`. -/
lemma containsSub_append_left (sep t : List Char) :
    containsSub sep (sep ++ t) = true := by
  unfold containsSub
  rw [List.any_eq_true]
  exact ⟨0, by simp, by simp [isPrefixOf_append_self]⟩

/-- If `containsSub` fails, no suffix starts with the separator. -/
lemma noOccur_of_containsSub_false {sep s : List Char} (hsep : sep ≠ [])
    (h : containsSub sep s = false) :
    ∀ i, sep.isPrefixOf (s.drop i) = false := by
  intro i
  by_cases hi : i ≤ s.length
  · have hall := List.any_eq_false.mp h
    have h2 := hall i (List.mem_range.mpr (by omega))
    cases hb : sep.isPrefixOf (s.drop i)
    · rfl
    · exact absurd hb h2
  · have hdrop : s.drop i = [] := List.drop_eq_nil_of_le (by omega)
    rw [hdrop]
    cases sep with
    | nil => exact absurd rfl hsep
    | cons a as => rfl

/-- Splitting a string in which the separator never occurs returns the
string whole. -/
lemma splitSubFuel_no_occur {sep : List Char} (s : List Char) :
    ∀ fuel, s.length < fuel →
      (∀ i, sep.isPrefixOf (s.drop i) = false) →
      splitSubFuel sep fuel s = [s] := by
  induction s with
  | nil =>
    intro fuel hf h
    cases fuel with
    | zero => exact absurd hf (by omega)
    | succ f => simp [splitSubFuel, h 0]
  | cons c rest ih =>
    intro fuel hf h
    cases fuel with
    | zero => exact absurd hf (by omega)
    | succ f =>
      have h0 := h 0
      simp only [List.drop_zero] at h0
      have hrest := ih f (by simpa using Nat.lt_of_succ_lt_succ hf) (fun i => by
        have := h (i + 1)
        simpa [List.drop_succ_cons] using this)
      simp [splitSubFuel, h0, hrest]

/-- Unfolding step of `splitSubFuel` at positive fuel. -/
lemma splitSubFuel_succ (sep : List Char) (fuel : Nat) (s : List Char) :
    splitSubFuel sep (fuel + 1) s =
      if sep ≠ [] ∧ sep.isPrefixOf s then
        [] :: splitSubFuel sep fuel (s.drop sep.length)
      else
        match s with
        | [] => [[]]
        | c :: rest =>
          match splitSubFuel sep fuel rest with
          | [] => [[c]]
          | seg :: segs => (c :: seg) :: segs := rfl

/-- Splitting `sep ++ tok` when `sep` does not occur in `tok` yields the
empty segment before the separator and `tok` after it. -/
lemma splitSub_sep_append {sep : List Char} (tok : List Char) (hsep : sep ≠ [])
    (hno : containsSub sep tok = false) :
    splitSub sep (sep ++ tok) = [[], tok] := by
  have hlen : 0 < sep.length := List.length_pos.mpr hsep
  have hpref := isPrefixOf_append_self sep tok
  have hstep : (sep ++ tok).length + 1 = (sep.length + tok.length) + 1 := by
    simp
  rw [splitSub, hstep, splitSubFuel_succ, if_pos ⟨hsep, hpref⟩, List.drop_left]
  rw [splitSubFuel_no_occur tok (sep.length + tok.length) (by omega)
    (noOccur_of_containsSub_false hsep hno)]

/-- C9 counterexample: the debug-log masking leaves a short bearer token
fully visible: `logWithPrefix` only masks when the text after `Bearer ` is
longer than 20 characters, so the message
`Authorization: Bearer tok12345` is logged unchanged, with the complete
token `tok12345` appearing unmasked. -/
theorem short_bearer_token_unmasked_cex :
    maskMessage "Authorization: Bearer tok12345" =
      "Authorization: Bearer tok12345" ∧
    strContains (maskMessage "Authorization: Bearer tok12345") "tok12345" =
      true := by decide

/-- C9 (amended): a bearer token in a debug-log message is masked to its
first 5 and last 5 characters only when the text following `Bearer ` is
longer than 20 characters; a token of 20 characters or fewer is logged
unmasked. -/
theorem bearer_masking_threshold (tok : List Char)
    (hno : containsSub bearerMarker tok = false) :
    (20 < tok.length →
      maskMessageL (bearerMarker ++ tok) =
        bearerMarker ++ (tok.take 5 ++ maskDots ++
          tok.drop (tok.length - 5))) ∧
    (tok.length ≤ 20 → maskMessageL (bearerMarker ++ tok) =
      bearerMarker ++ tok) := by
  have hsep : bearerMarker ≠ [] := by decide
  have hc : containsSub bearerMarker (bearerMarker ++ tok) = true :=
    containsSub_append_left _ _
  have hsplit : splitSub bearerMarker (bearerMarker ++ tok) = [[], tok] :=
    splitSub_sep_append tok hsep hno
  constructor
  · intro hlen
    simp [maskMessageL, hc, hsplit, hlen]
  · intro hlen
    simp [maskMessageL, hc, hsplit, Nat.not_lt.mpr hlen]

/-- Witness for C9 (amended): a 26-character token is masked to its first
and last 5 characters. -/
theorem bearer_masking_threshold_witness :
    (containsSub bearerMarker "abcdefghijklmnopqrstuvwxyz".data = false) ∧
    ((20 < "abcdefghijklmnopqrstuvwxyz".data.length →
      maskMessageL (bearerMarker ++ "abcdefghijklmnopqrstuvwxyz".data) =
        bearerMarker ++ ("abcdefghijklmnopqrstuvwxyz".data.take 5 ++ maskDots ++
          "abcdefghijklmnopqrstuvwxyz".data.drop
            ("abcdefghijklmnopqrstuvwxyz".data.length - 5))) ∧
     ("abcdefghijklmnopqrstuvwxyz".data.length ≤ 20 →
      maskMessageL (bearerMarker ++ "abcdefghijklmnopqrstuvwxyz".data) =
        bearerMarker ++ "abcdefghijklmnopqrstuvwxyz".data)) :=
  ⟨by decide, bearer_masking_threshold _ (by decide)⟩

/-- C10: when debug logging is enabled and the persisted credential file
exists but its trimmed content is shorter than 5 characters,
`GetCopilotToken` panics while masking the loaded token for the debug log
(an index-out-of-range slice), instead of proceeding with the exchange or
returning an error. -/
theorem short_loaded_token_panics (w : AuthWorld) (tok : String)
    (_hdebug : w.debug = true) (hload : w.loadResult = Except.ok tok)
    (hshort : tok.length < 5) :
    (getCopilotToken w).1 = AuthOutcome.panicked ∧
    (getCopilotToken w).2 = [AuthEv.loadTok] := by
  constructor <;> simp [getCopilotToken, hload, hshort]

/-- Witness for C10: loading the three-character credential `abc` with debug
logging enabled panics before any exchange is attempted. -/
theorem short_loaded_token_panics_witness :
    ((⟨true, Except.ok "abc", [], [], []⟩ : AuthWorld).debug = true) ∧
    ((⟨true, Except.ok "abc", [], [], []⟩ : AuthWorld).loadResult =
      Except.ok "abc") ∧
    (("abc" : String).length < 5) ∧
    ((getCopilotToken ⟨true, Except.ok "abc", [], [], []⟩).1 =
        AuthOutcome.panicked ∧
     (getCopilotToken ⟨true, Except.ok "abc", [], [], []⟩).2 = [AuthEv.loadTok]) :=
  ⟨rfl, rfl, by decide, short_loaded_token_panics _ "abc" rfl rfl (by decide)⟩

end Ghcsd
